import Mathlib

set_option linter.unusedVariables false

/-!
Verification of the NeuroQuant backtest engine
(`services/marketService.ts`: `calculateSMA`, `calculateRSI`, `runBacktest`,
types from `types.ts`).

JavaScript numbers are modelled by `JsNum`: an exact rational together with
the IEEE special values `NaN`, `+Infinity`, `-Infinity`.  Arithmetic follows
the IEEE/JS rules for the special values (any operation with `NaN` yields
`NaN`, relational operators on `NaN` are `false`, division of a nonzero
finite number by zero gives a signed infinity, `0/0`, `∞·0`, `∞-∞`, `∞/∞`
give `NaN`); finite arithmetic is idealized as exact rational arithmetic
(no rounding), so the literal `0.99` is the exact rational `99/100`.
`undefined` read out of array bounds is modelled by `NaN` where it is only
used in relational comparisons (JS coerces `undefined` to `NaN` there), and
by a thrown `TypeError` where a property of `undefined` would be accessed.
-/

inductive JsNum where
  | nan : JsNum
  | inf : JsNum
  | ninf : JsNum
  | num : ℚ → JsNum
deriving DecidableEq, Repr

namespace JsNum

def add : JsNum → JsNum → JsNum
  | nan, _ => nan
  | _, nan => nan
  | inf, ninf => nan
  | ninf, inf => nan
  | inf, _ => inf
  | _, inf => inf
  | ninf, _ => ninf
  | _, ninf => ninf
  | num a, num b => num (a + b)

def neg : JsNum → JsNum
  | nan => nan
  | inf => ninf
  | ninf => inf
  | num a => num (-a)

def sub (a b : JsNum) : JsNum := a.add b.neg

def mul : JsNum → JsNum → JsNum
  | nan, _ => nan
  | _, nan => nan
  | inf, inf => inf
  | inf, ninf => ninf
  | ninf, inf => ninf
  | ninf, ninf => inf
  | inf, num b => if 0 < b then inf else if b < 0 then ninf else nan
  | num a, inf => if 0 < a then inf else if a < 0 then ninf else nan
  | ninf, num b => if 0 < b then ninf else if b < 0 then inf else nan
  | num a, ninf => if 0 < a then ninf else if a < 0 then inf else nan
  | num a, num b => num (a * b)

def div : JsNum → JsNum → JsNum
  | nan, _ => nan
  | _, nan => nan
  | inf, inf => nan
  | inf, ninf => nan
  | ninf, inf => nan
  | ninf, ninf => nan
  | inf, num b => if b < 0 then ninf else inf
  | ninf, num b => if b < 0 then inf else ninf
  | num _, inf => num 0
  | num _, ninf => num 0
  | num a, num b =>
      if b = 0 then (if a = 0 then nan else if 0 < a then inf else ninf)
      else num (a / b)

def abs : JsNum → JsNum
  | nan => nan
  | inf => inf
  | ninf => inf
  | num a => num |a|

/-- JS `<` (false whenever an operand is `NaN`). -/
def lt : JsNum → JsNum → Bool
  | nan, _ => false
  | _, nan => false
  | inf, _ => false
  | ninf, ninf => false
  | ninf, _ => true
  | num _, inf => true
  | num _, ninf => false
  | num a, num b => a < b

/-- JS `<=` (false whenever an operand is `NaN`). -/
def le : JsNum → JsNum → Bool
  | nan, _ => false
  | _, nan => false
  | inf, inf => true
  | inf, _ => false
  | ninf, _ => true
  | num _, inf => true
  | num _, ninf => false
  | num a, num b => a ≤ b

/-- JS `>`. -/
def gt (a b : JsNum) : Bool := lt b a

/-- JS `>=`. -/
def ge (a b : JsNum) : Bool := le b a

end JsNum

/-! ## Data model (`types.ts`) -/

inductive SignalType where
  | BUY : SignalType
  | SELL : SignalType
  | HOLD : SignalType
deriving DecidableEq, Repr

structure MarketData where
  date : String
  close : JsNum
  open_ : JsNum
  high : JsNum
  low : JsNum
  volume : JsNum
deriving DecidableEq, Repr

structure Trade where
  date : String
  type : SignalType
  price : JsNum
  amount : JsNum
  balanceAfter : JsNum
  reason : String
deriving DecidableEq, Repr

inductive StrategyMode where
  | ALGO : StrategyMode
  | AI : StrategyMode
deriving DecidableEq, Repr

structure StrategyConfig where
  mode : StrategyMode
  initialCapital : ℚ
  shortWindow : ℤ
  longWindow : ℤ
  rsiPeriod : ℤ
  rsiOverbought : ℚ
  rsiOversold : ℚ
  useRsiFilter : Bool
deriving DecidableEq, Repr

structure HistoryEntry where
  date : String
  balance : JsNum
deriving DecidableEq, Repr

structure BacktestResult where
  trades : List Trade
  finalBalance : JsNum
  totalReturn : JsNum
  winRate : JsNum
  maxDrawdown : JsNum
  history : List HistoryEntry
deriving DecidableEq, Repr

structure AiSignal where
  date : String
  action : SignalType
  reason : String
deriving DecidableEq, Repr

/-- Error vocabulary.  `TypeError` is a thrown JS `TypeError` (property
access on `undefined`).  `InvalidInput` and `InvalidConfig` are the error
kinds named by the specification's error-handling section; they are part of
the vocabulary so that the spec's claims about them can be stated. -/
inductive EngineError where
  | InvalidInput : EngineError
  | InvalidConfig : EngineError
  | TypeError : EngineError
deriving DecidableEq, Repr

/-! ## Indicator library (`marketService.ts`) -/

/-- JS `Array.prototype.slice(start, stop)` (negative indices count from the
end, results clamped to the array bounds). -/
def jsSlice {α : Type} (xs : List α) (start stop : ℤ) : List α :=
  let n : ℤ := xs.length
  let s : ℤ := if start < 0 then max (n + start) 0 else min start n
  let e : ℤ := if stop < 0 then max (n + stop) 0 else min stop n
  (xs.drop s.toNat).take (e - s).toNat

/-- `calculateSMA(data, windowSize)`: per index, `NaN` while
`idx < windowSize - 1`, otherwise the sum of the closes of
`data.slice(idx - windowSize + 1, idx + 1)` divided by `windowSize`. -/
def calculateSMA (data : List MarketData) (windowSize : ℤ) : List JsNum :=
  data.mapIdx fun idx _ =>
    if (idx : ℤ) < windowSize - 1 then JsNum.nan
    else
      let slice := jsSlice data ((idx : ℤ) - windowSize + 1) ((idx : ℤ) + 1)
      let sum := slice.foldl (fun acc curr => acc.add curr.close) (JsNum.num 0)
      sum.div (JsNum.num (windowSize : ℚ))

/-- `data[i].close` for an integer index: out of bounds, `data[i]` is
`undefined` and reading `.close` throws a `TypeError`. -/
def jsGetClose (data : List MarketData) (i : ℤ) : Except EngineError JsNum :=
  if 0 ≤ i then
    match data.get? i.toNat with
    | some d => .ok d.close
    | none => .error .TypeError
  else .error .TypeError

/-- Seed loop of `calculateRSI`: `for (i = 1; i <= period; i++)`, accumulating
positive diffs into `gains` and `|negative diffs|` into `losses`.  `i` is the
running index, `fuel` the number of remaining iterations. -/
def rsiSeedLoop (data : List MarketData) :
    JsNum → JsNum → ℤ → ℕ → Except EngineError (JsNum × JsNum)
  | gains, losses, _, 0 => .ok (gains, losses)
  | gains, losses, i, fuel + 1 =>
    match jsGetClose data i, jsGetClose data (i - 1) with
    | .error e, _ => .error e
    | .ok _, .error e => .error e
    | .ok c, .ok p =>
      let diff := c.sub p
      if diff.gt (JsNum.num 0) then rsiSeedLoop data (gains.add diff) losses (i + 1) fuel
      else rsiSeedLoop data gains (losses.add diff.abs) (i + 1) fuel

/-- `arr[i] = v` for an integer index (in-range assignment; a negative index
creates a non-element property in JS and leaves the array elements alone). -/
def jsSetNum (xs : List JsNum) (i : ℤ) (v : JsNum) : List JsNum :=
  if 0 ≤ i then xs.set i.toNat v else xs

/-- Main loop of `calculateRSI`: `for (i = period + 1; i < data.length; i++)`
with Wilder smoothing of `avgGain`/`avgLoss` and the `avgLoss === 0 ? 1 :
avgLoss` guard.  `fuel` is the number of remaining iterations. -/
def rsiMainLoop (data : List MarketData) (period : ℤ) :
    JsNum → JsNum → ℤ → ℕ → List JsNum → Except EngineError (List JsNum)
  | _, _, _, 0, arr => .ok arr
  | avgGain, avgLoss, i, fuel + 1, arr =>
    match jsGetClose data i, jsGetClose data (i - 1) with
    | .error e, _ => .error e
    | .ok _, .error e => .error e
    | .ok c, .ok p =>
      let diff := c.sub p
      let gain := if diff.gt (JsNum.num 0) then diff else JsNum.num 0
      let loss := if diff.lt (JsNum.num 0) then diff.abs else JsNum.num 0
      let avgGain' := ((avgGain.mul (JsNum.num ((period : ℚ) - 1))).add gain).div
        (JsNum.num (period : ℚ))
      let avgLoss' := ((avgLoss.mul (JsNum.num ((period : ℚ) - 1))).add loss).div
        (JsNum.num (period : ℚ))
      let rs := avgGain'.div (if avgLoss' = JsNum.num 0 then JsNum.num 1 else avgLoss')
      let rsiVal := (JsNum.num 100).sub ((JsNum.num 100).div ((JsNum.num 1).add rs))
      rsiMainLoop data period avgGain' avgLoss' (i + 1) fuel (jsSetNum arr i rsiVal)

/-- `calculateRSI(data, period)`. -/
def calculateRSI (data : List MarketData) (period : ℤ) :
    Except EngineError (List JsNum) :=
  let rsiArray : List JsNum := List.replicate data.length JsNum.nan
  if (data.length : ℤ) ≤ period then .ok rsiArray
  else
    match rsiSeedLoop data (JsNum.num 0) (JsNum.num 0) 1 period.toNat with
    | .error e => .error e
    | .ok (gains, losses) =>
      let avgGain := gains.div (JsNum.num (period : ℚ))
      let avgLoss := losses.div (JsNum.num (period : ℚ))
      let seedRsi := (JsNum.num 100).sub ((JsNum.num 100).div ((JsNum.num 1).add
        (avgGain.div (if avgLoss = JsNum.num 0 then JsNum.num 1 else avgLoss))))
      rsiMainLoop data period avgGain avgLoss (period + 1)
        ((data.length : ℤ) - (period + 1)).toNat (jsSetNum rsiArray period seedRsi)

/-! ## Backtest engine (`runBacktest`) -/

/-- `arr[i]` for an integer index where the value is only used in relational
comparisons: out of bounds, JS yields `undefined`, which relational operators
coerce to `NaN`. -/
def jsIndex (xs : List JsNum) (i : ℤ) : JsNum :=
  if 0 ≤ i then (xs.get? i.toNat).getD JsNum.nan else JsNum.nan

/-- `Map.set` semantics: setting an existing key overwrites it, a fresh key is
appended. -/
def jsMapSet (m : List (String × AiSignal)) (k : String) (v : AiSignal) :
    List (String × AiSignal) :=
  if m.any (fun p => p.1 = k) then m.map (fun p => if p.1 = k then (k, v) else p)
  else m ++ [(k, v)]

/-- `Map.get` semantics. -/
def jsMapGet (m : List (String × AiSignal)) (k : String) : Option AiSignal :=
  (m.find? (fun p => p.1 = k)).map (fun p => p.2)

/-- The `aiSignalMap`, built only when `config.mode === 'AI'` and signals were
supplied. -/
def buildAiMap (config : StrategyConfig) (aiSignals : Option (List AiSignal)) :
    List (String × AiSignal) :=
  if config.mode = StrategyMode.AI then
    match aiSignals with
    | some sigs => sigs.foldl (fun m s => jsMapSet m s.date s) []
    | none => []
  else []

/-- Signal resolution for bar `i` (the body of the loop before "Execute
Trade"): AI-mode map lookup, or the SMA-crossover / RSI-filter rules. -/
def resolveSignal (config : StrategyConfig) (shortSMA longSMA rsi : List JsNum)
    (aiMap : List (String × AiSignal)) (i : ℕ) (date : String) :
    SignalType × String :=
  if config.mode = StrategyMode.AI then
    match jsMapGet aiMap date with
    | some aiDecision => (aiDecision.action, aiDecision.reason)
    | none => (SignalType.HOLD, "")
  else
    let prevShort := jsIndex shortSMA ((i : ℤ) - 1)
    let currShort := jsIndex shortSMA (i : ℤ)
    let prevLong := jsIndex longSMA ((i : ℤ) - 1)
    let currLong := jsIndex longSMA (i : ℤ)
    let currRSI := jsIndex rsi (i : ℤ)
    let crossoverBuy := prevShort.le prevLong && currShort.gt currLong
    let crossoverSell := prevShort.ge prevLong && currShort.lt currLong
    let rsiBuyAllowed := !config.useRsiFilter || currRSI.lt (JsNum.num config.rsiOversold)
    let rsiSellForce := config.useRsiFilter && currRSI.gt (JsNum.num config.rsiOverbought)
    if crossoverBuy && rsiBuyAllowed then (SignalType.BUY, "")
    else if crossoverSell || rsiSellForce then (SignalType.SELL, "")
    else (SignalType.HOLD, "")

/-- Mutable state of the simulation loop. -/
structure SimState where
  cash : JsNum
  holdings : JsNum
  trades : List Trade
  history : List HistoryEntry
  peakBalance : JsNum
  maxDrawdown : JsNum
deriving DecidableEq, Repr

/-- The "Execute Trade" block of `runBacktest`. -/
def executeTrade (s : SimState) (signal : SignalType) (reason date : String)
    (price : JsNum) : SimState :=
  if signal = SignalType.BUY ∧ s.cash.gt price = true then
    let amountToBuy := (s.cash.mul (JsNum.num (99 / 100))).div price
    if amountToBuy.gt (JsNum.num 0) = true then
      let cost := amountToBuy.mul price
      if cost.le s.cash = true then
        let cash := s.cash.sub cost
        let holdings := s.holdings.add amountToBuy
        { s with
          cash := cash
          holdings := holdings
          trades := s.trades ++ [{
            date := date
            type := SignalType.BUY
            price := price
            amount := amountToBuy
            balanceAfter := cash.add (holdings.mul price)
            reason := if reason = "" then "Technical Signal" else reason }] }
      else s
    else s
  else if signal = SignalType.SELL ∧ s.holdings.gt (JsNum.num 0) = true then
    let cash := s.cash.add (s.holdings.mul price)
    { s with
      cash := cash
      holdings := JsNum.num 0
      trades := s.trades ++ [{
        date := date
        type := SignalType.SELL
        price := price
        amount := s.holdings
        balanceAfter := cash
        reason := if reason = "" then "Technical Signal" else reason }] }
  else s

/-- One iteration of the simulation loop at bar `(i, d)`: the ALGO warm-up
skip branch, or signal resolution, trade execution, history append and
peak/drawdown update. -/
def backtestStep (config : StrategyConfig) (shortSMA longSMA rsi : List JsNum)
    (aiMap : List (String × AiSignal)) (s : SimState) (p : ℕ × MarketData) :
    SimState :=
  let i := p.1
  let d := p.2
  let price := d.close
  let date := d.date
  if config.mode = StrategyMode.ALGO ∧ (i : ℤ) < max config.longWindow config.rsiPeriod then
    { s with history := s.history ++ [{ date := date, balance := s.cash }] }
  else
    let sig := resolveSignal config shortSMA longSMA rsi aiMap i date
    let s := executeTrade s sig.1 sig.2 date price
    let currentTotalValue := s.cash.add (s.holdings.mul price)
    let peakBalance :=
      if currentTotalValue.gt s.peakBalance then currentTotalValue else s.peakBalance
    let drawdown := (peakBalance.sub currentTotalValue).div peakBalance
    { s with
      history := s.history ++ [{ date := date, balance := currentTotalValue }]
      peakBalance := peakBalance
      maxDrawdown := if drawdown.gt s.maxDrawdown then drawdown else s.maxDrawdown }

/-- Initial loop state: `cash = initialCapital`, no holdings, no trades,
`peakBalance = initialCapital`, `maxDrawdown = 0`. -/
def initState (config : StrategyConfig) : SimState :=
  { cash := JsNum.num config.initialCapital
    holdings := JsNum.num 0
    trades := []
    history := []
    peakBalance := JsNum.num config.initialCapital
    maxDrawdown := JsNum.num 0 }

/-- The loop state after the first `k` iterations of the simulation loop. -/
def simStateAfter (config : StrategyConfig) (shortSMA longSMA rsi : List JsNum)
    (aiMap : List (String × AiSignal)) (data : List MarketData) (k : ℕ) : SimState :=
  (data.enum.take k).foldl (backtestStep config shortSMA longSMA rsi aiMap)
    (initState config)

/-- Backward scan of the win-rate pairing: checks trade indices `j, j-1, …, 0`
and returns the price of the first BUY found (all indices visited are in
range at the call sites). -/
def entryPriceFrom (trades : List Trade) : ℕ → JsNum
  | 0 =>
    match trades.get? 0 with
    | some t => if t.type = SignalType.BUY then t.price else JsNum.num 0
    | none => JsNum.num 0
  | j + 1 =>
    match trades.get? (j + 1) with
    | some t => if t.type = SignalType.BUY then t.price else entryPriceFrom trades j
    | none => entryPriceFrom trades j

/-- `entryPrice` for the SELL at trade index `i`: `0`, overwritten by the
backward loop `for (j = i - 1; j >= 0; j--)` at the first BUY found. -/
def findEntryPrice (trades : List Trade) : ℕ → JsNum
  | 0 => JsNum.num 0
  | j + 1 => entryPriceFrom trades j

/-- The filter predicate of `profitableTrades`. -/
def isProfitableSell (trades : List Trade) (i : ℕ) (t : Trade) : Bool :=
  t.type = SignalType.SELL && t.price.gt (findEntryPrice trades i)

/-- `profitableTrades`: number of SELL trades whose price exceeds the entry
price found by the backward scan. -/
def profitableTradesCount (trades : List Trade) : ℕ :=
  (trades.enum.filter (fun p => isProfitableSell trades p.1 p.2)).length

/-- `sellTradesCount`. -/
def sellTradesCount (trades : List Trade) : ℕ :=
  (trades.filter (fun t => t.type = SignalType.SELL)).length

/-- The report built after the loop (`finalBalance`, `totalReturn`, `winRate`,
`maxDrawdown`, `trades`, `history`). -/
def buildResult (config : StrategyConfig) (s : SimState) (last : MarketData) :
    BacktestResult :=
  let finalBalance := s.cash.add (s.holdings.mul last.close)
  let totalReturn := ((finalBalance.sub (JsNum.num config.initialCapital)).div
    (JsNum.num config.initialCapital)).mul (JsNum.num 100)
  let winRate :=
    if 0 < sellTradesCount s.trades then
      JsNum.num (((profitableTradesCount s.trades : ℚ) / (sellTradesCount s.trades : ℚ)) * 100)
    else JsNum.num 0
  { trades := s.trades
    finalBalance := finalBalance
    totalReturn := totalReturn
    winRate := winRate
    maxDrawdown := s.maxDrawdown.mul (JsNum.num 100)
    history := s.history }

/-- `runBacktest(data, config, aiSignals)`.  On empty `data` the read
`data[data.length - 1].close` after the loop is a property access on
`undefined` and throws a `TypeError`. -/
def runBacktest (data : List MarketData) (config : StrategyConfig)
    (aiSignals : Option (List AiSignal)) : Except EngineError BacktestResult :=
  let shortSMA := calculateSMA data config.shortWindow
  let longSMA := calculateSMA data config.longWindow
  match calculateRSI data config.rsiPeriod with
  | .error e => .error e
  | .ok rsi =>
    let aiMap := buildAiMap config aiSignals
    let s := data.enum.foldl (backtestStep config shortSMA longSMA rsi aiMap)
      (initState config)
    match data.getLast? with
    | none => .error .TypeError
    | some last => .ok (buildResult config s last)

/-! ## Test-harness helpers (not part of the source) -/

/-- A bare price series from a list of rational closes (the engine reads only
`close` and `date`; dates are made distinct). -/
def mkSeries (qs : List ℚ) : List MarketData :=
  qs.enum.map fun p =>
    { date := "day" ++ toString p.1
      close := JsNum.num p.2
      open_ := JsNum.num p.2
      high := JsNum.num p.2
      low := JsNum.num p.2
      volume := JsNum.num 0 }

/-- Placeholder result used as an `Except.getD` default in witnesses. -/
def dummyResult : BacktestResult :=
  { trades := []
    finalBalance := JsNum.num 0
    totalReturn := JsNum.num 0
    winRate := JsNum.num 0
    maxDrawdown := JsNum.num 0
    history := [] }

/-! ## Helper lemmas -/

lemma mkSeries_length (qs : List ℚ) : (mkSeries qs).length = qs.length := by
  simp [mkSeries]

lemma mkSeries_map_close (qs : List ℚ) :
    (mkSeries qs).map (fun d => d.close) = qs.map JsNum.num := by
  unfold mkSeries
  rw [List.map_map]
  have h : ((fun d => d.close) ∘ fun p : ℕ × ℚ =>
      ({ date := "day" ++ toString p.1, close := JsNum.num p.2, open_ := JsNum.num p.2,
         high := JsNum.num p.2, low := JsNum.num p.2,
         volume := JsNum.num 0 } : MarketData)) = JsNum.num ∘ Prod.snd := rfl
  rw [h, ← List.map_map, List.enum_map_snd]

lemma jsSlice_eq {α : Type} (xs : List α) (start stop : ℤ)
    (h0 : 0 ≤ start) (hs : start ≤ stop) (hstop : stop ≤ xs.length) :
    jsSlice xs start stop = (xs.drop start.toNat).take (stop - start).toNat := by
  unfold jsSlice
  dsimp only
  rw [if_neg (by omega), if_neg (by omega),
    min_eq_left (by omega : start ≤ (xs.length : ℤ)), min_eq_left hstop]

lemma foldl_add_close (md : List MarketData) (l : List ℚ) (a : ℚ)
    (h : md.map (fun d => d.close) = l.map JsNum.num) :
    md.foldl (fun acc curr => acc.add curr.close) (JsNum.num a) = JsNum.num (a + l.sum) := by
  induction md generalizing l a with
  | nil =>
    cases l with
    | nil => simp
    | cons q l' => simp at h
  | cons x xs ih =>
    cases l with
    | nil => simp at h
    | cons q l' =>
      simp only [List.map_cons, List.cons.injEq] at h
      obtain ⟨h1, h2⟩ := h
      simp only [List.foldl_cons, h1]
      have hstep : (JsNum.num a).add (JsNum.num q) = JsNum.num (a + q) := rfl
      rw [hstep, ih l' (a + q) h2, List.sum_cons]
      congr 1
      ring

/-- C5: for every price series whose closes are the rationals `qs` and every
positive window `w`, `calculateSMA` returns a sequence of the same length as
the series, whose entry `i` is `NaN` exactly when `i < w - 1` and equals the
arithmetic mean of the closes at indices `i-w+1 .. i` for `i ≥ w - 1`. -/
theorem sma_warmup_and_mean (data : List MarketData) (qs : List ℚ) (w : ℕ)
    (hw : 0 < w) (hdq : data.map (fun d => d.close) = qs.map JsNum.num) :
    (calculateSMA data (w : ℤ)).length = data.length ∧
    ∀ i (hi : i < data.length) (hi' : i < (calculateSMA data (w : ℤ)).length),
      (i < w - 1 → (calculateSMA data (w : ℤ)).get ⟨i, hi'⟩ = JsNum.nan) ∧
      (w - 1 ≤ i → (calculateSMA data (w : ℤ)).get ⟨i, hi'⟩ =
        JsNum.num ((((qs.drop (i + 1 - w)).take w).sum) / (w : ℚ))) := by
  have hlen : data.length = qs.length := by
    have := congrArg List.length hdq
    simpa using this
  constructor
  · simp [calculateSMA, List.length_mapIdx]
  · intro i hi hi'
    have hget : (calculateSMA data ((w : ℕ) : ℤ)).get ⟨i, hi'⟩ =
        (fun (idx : ℕ) (_ : MarketData) =>
          if (idx : ℤ) < (w : ℤ) - 1 then JsNum.nan
          else
            let slice := jsSlice data ((idx : ℤ) - (w : ℤ) + 1) ((idx : ℤ) + 1)
            let sum := slice.foldl (fun acc curr => acc.add curr.close) (JsNum.num 0)
            sum.div (JsNum.num ((w : ℤ) : ℚ))) i (data.get ⟨i, hi⟩) :=
      List.get_mapIdx data _ i hi hi'
    rw [hget]
    dsimp only
    constructor
    · intro hlt
      rw [if_pos (by omega)]
    · intro hge
      rw [if_neg (by omega)]
      have hA : (0:ℤ) ≤ (i : ℤ) - (w : ℤ) + 1 := by omega
      have hB : (i : ℤ) - (w : ℤ) + 1 ≤ (i : ℤ) + 1 := by omega
      have hC : (i : ℤ) + 1 ≤ (data.length : ℤ) := by omega
      have hslice : jsSlice data ((i : ℤ) - (w : ℤ) + 1) ((i : ℤ) + 1) =
          (data.drop (i + 1 - w)).take w := by
        rw [jsSlice_eq data ((i : ℤ) - (w : ℤ) + 1) ((i : ℤ) + 1)
          hA hB hC]
        have e1 : (((i : ℤ) + 1) - ((i : ℤ) - (w : ℤ) + 1)).toNat = w := by omega
        have e2 : ((i : ℤ) - (w : ℤ) + 1).toNat = i + 1 - w := by omega
        rw [e1, e2]
      rw [hslice]
      have hmap : ((data.drop (i + 1 - w)).take w).map (fun d => d.close) =
          (((qs.drop (i + 1 - w)).take w)).map JsNum.num := by
        simp only [List.map_take, List.map_drop, hdq]
      rw [foldl_add_close _ _ 0 hmap]
      have hwq : ((w : ℤ) : ℚ) ≠ 0 := by push_cast; positivity
      show JsNum.div _ _ = _
      rw [JsNum.div]
      simp only [if_neg hwq]
      rw [zero_add]
      norm_num

/-- C5 witness: the spec's own example, closes `[10,20,30,40]` with `w = 2`. -/
theorem sma_warmup_and_mean_witness :
    0 < 2 ∧
    (calculateSMA (mkSeries [10, 20, 30, 40]) ((2 : ℕ) : ℤ)).length = 4 ∧
    calculateSMA (mkSeries [10, 20, 30, 40]) ((2 : ℕ) : ℤ) =
      [JsNum.nan, JsNum.num 15, JsNum.num 25, JsNum.num 35] := by
  have hmap : (mkSeries [10, 20, 30, 40]).map (fun d => d.close) =
      ([10, 20, 30, 40] : List ℚ).map JsNum.num := by
    norm_num [mkSeries, List.enum, List.enumFrom]
  have h := sma_warmup_and_mean (mkSeries [10, 20, 30, 40]) [10, 20, 30, 40] 2
    (by norm_num) hmap
  refine ⟨by norm_num, by simpa [mkSeries, List.enum, List.enumFrom] using h.1, ?_⟩
  norm_num [calculateSMA, mkSeries, jsSlice, List.enum, List.enumFrom,
    List.mapIdx_eq_ofFn, List.ofFn_succ, JsNum.add, JsNum.div,
    show Int.toNat 2 = 2 from rfl,
    List.take_succ_cons, List.take_zero, List.drop_succ_cons, List.drop_zero,
    List.foldl_cons, List.foldl_nil]

namespace JsNum

lemma num_add (a b : ℚ) : (num a).add (num b) = num (a + b) := rfl

lemma num_sub (a b : ℚ) : (num a).sub (num b) = num (a - b) := by
  show (num a).add (num b).neg = _
  show num (a + -b) = _
  rw [sub_eq_add_neg]

lemma num_mul (a b : ℚ) : (num a).mul (num b) = num (a * b) := rfl

lemma num_div (a b : ℚ) (hb : b ≠ 0) : (num a).div (num b) = num (a / b) := by
  simp [div, hb]

lemma num_gt (a b : ℚ) : (num a).gt (num b) = decide (b < a) := rfl

lemma num_lt (a b : ℚ) : (num a).lt (num b) = decide (a < b) := rfl

lemma num_le (a b : ℚ) : (num a).le (num b) = decide (a ≤ b) := rfl

lemma num_ge (a b : ℚ) : (num a).ge (num b) = decide (b ≤ a) := rfl

end JsNum

/-- Reading `data[i].close` out of a series whose closes are the rationals
`qs` succeeds in range and returns the corresponding rational close. -/
lemma jsGetClose_num (data : List MarketData) (qs : List ℚ)
    (hdq : data.map (fun d => d.close) = qs.map JsNum.num) (i : ℤ)
    (h0 : 0 ≤ i) (hlt : i.toNat < qs.length) :
    ∃ q, qs.get? i.toNat = some q ∧ jsGetClose data i = .ok (JsNum.num q) := by
  have hlen : data.length = qs.length := by
    have := congrArg List.length hdq; simpa using this
  have hd : data.get? i.toNat = some (data.get ⟨i.toNat, by omega⟩) :=
    List.get?_eq_get _
  refine ⟨qs.get ⟨i.toNat, hlt⟩, List.get?_eq_get _, ?_⟩
  have hmap := congrArg (fun l => l.get? i.toNat) hdq
  simp only [List.get?_map, hd, List.get?_eq_get hlt, Option.map_some'] at hmap
  rw [jsGetClose, if_pos h0, hd]
  dsimp only
  exact congrArg Except.ok (Option.some.injEq _ _ ▸ hmap)

/-- Consecutive closes of a strictly rising series strictly increase. -/
lemma chain_lt_get (qs : List ℚ) (hchain : qs.Chain' (· < ·)) (k : ℕ)
    (hk : 1 ≤ k) (hlt : k < qs.length) (a b : ℚ)
    (ha : qs.get? (k - 1) = some a) (hb : qs.get? k = some b) : a < b := by
  rw [List.chain'_iff_get] at hchain
  have h := hchain (k - 1) (by omega)
  rw [List.get?_eq_get (by omega : k - 1 < qs.length)] at ha
  rw [List.get?_eq_get hlt] at hb
  have hsucc : k - 1 + 1 = k := by omega
  simp only [Option.some.injEq] at ha hb
  subst ha hb
  convert h using 3 <;> omega

/-- On a strictly rising rational series the RSI seed loop accumulates only
gains: the loss accumulator stays `0` and the gain accumulator strictly grows
(indices `i, …, i+fuel-1` all in range). -/
lemma rsiSeedLoop_rising (data : List MarketData) (qs : List ℚ)
    (hdq : data.map (fun d => d.close) = qs.map JsNum.num)
    (hchain : qs.Chain' (· < ·)) :
    ∀ (fuel i : ℕ) (g : ℚ), 1 ≤ i → i + fuel ≤ qs.length →
    ∃ g', rsiSeedLoop data (JsNum.num g) (JsNum.num 0) (i : ℤ) fuel =
        .ok (JsNum.num g', JsNum.num 0) ∧ g ≤ g' ∧ (1 ≤ fuel → g < g') := by
  intro fuel
  induction fuel with
  | zero =>
    intro i g hi hrange
    exact ⟨g, rfl, le_refl g, by omega⟩
  | succ n ih =>
    intro i g hi hrange
    obtain ⟨b, hb, hgetb⟩ := jsGetClose_num data qs hdq (i : ℤ) (by omega)
      (by simp only [Int.toNat_natCast]; omega)
    obtain ⟨a, ha, hgeta⟩ := jsGetClose_num data qs hdq ((i : ℤ) - 1) (by omega)
      (by omega)
    have htn : ((i : ℤ) - 1).toNat = i - 1 := by omega
    have htn2 : (i : ℤ).toNat = i := by omega
    rw [htn] at ha
    rw [htn2] at hb
    have hab : a < b := chain_lt_get qs hchain i hi (by omega) a b ha hb
    rw [rsiSeedLoop, hgetb, hgeta]
    dsimp only
    rw [JsNum.num_sub, JsNum.num_gt]
    rw [if_pos (by simpa using sub_pos.2 hab)]
    rw [JsNum.num_add]
    have hstep : (i : ℤ) + 1 = ((i + 1 : ℕ) : ℤ) := by push_cast; ring
    rw [hstep]
    obtain ⟨g', hrec, hle, hlt⟩ := ih (i + 1) (g + (b - a)) (by omega) (by omega)
    exact ⟨g', hrec, by nlinarith, fun _ => by nlinarith⟩

/-- On a strictly rising rational series, with period 2, a zero loss average
and a positive gain average, the RSI main loop succeeds and only ever writes
finite values strictly below 100. -/
lemma rsiMainLoop_rising (data : List MarketData) (qs : List ℚ)
    (hdq : data.map (fun d => d.close) = qs.map JsNum.num)
    (hchain : qs.Chain' (· < ·)) :
    ∀ (fuel i : ℕ) (g : ℚ) (arr : List JsNum), 1 ≤ i → i + fuel ≤ qs.length →
    0 < g →
    (∀ v ∈ arr, v = JsNum.nan ∨ ∃ q, v = JsNum.num q ∧ q < 100) →
    ∃ arr', rsiMainLoop data 2 (JsNum.num g) (JsNum.num 0) (i : ℤ) fuel arr =
        .ok arr' ∧
      ∀ v ∈ arr', v = JsNum.nan ∨ ∃ q, v = JsNum.num q ∧ q < 100 := by
  intro fuel
  induction fuel with
  | zero =>
    intro i g arr hi hrange hg harr
    exact ⟨arr, rfl, harr⟩
  | succ n ih =>
    intro i g arr hi hrange hg harr
    obtain ⟨b, hb, hgetb⟩ := jsGetClose_num data qs hdq (i : ℤ) (by omega)
      (by simp only [Int.toNat_natCast]; omega)
    obtain ⟨a, ha, hgeta⟩ := jsGetClose_num data qs hdq ((i : ℤ) - 1) (by omega)
      (by omega)
    have htn : ((i : ℤ) - 1).toNat = i - 1 := by omega
    have htn2 : (i : ℤ).toNat = i := by omega
    rw [htn] at ha
    rw [htn2] at hb
    have hab : a < b := chain_lt_get qs hchain i hi (by omega) a b ha hb
    rw [rsiMainLoop, hgetb, hgeta]
    dsimp only
    rw [JsNum.num_sub, JsNum.num_gt, JsNum.num_lt]
    rw [if_pos (by simpa using sub_pos.2 hab), if_neg (by simp; linarith)]
    rw [JsNum.num_mul, JsNum.num_add, JsNum.num_div _ _ (by norm_num),
      JsNum.num_mul, JsNum.num_add, JsNum.num_div _ _ (by norm_num)]
    simp only [show ((2 : ℤ) : ℚ) = (2 : ℚ) from by norm_num]
    have hzero : ((0 : ℚ) * (2 - 1) + 0) / 2 = 0 := by norm_num
    rw [hzero]
    rw [if_pos rfl]
    set g' : ℚ := (g * ((2 : ℚ) - 1) + (b - a)) / 2 with hg'
    have hgpos : 0 < g' := by rw [hg']; nlinarith
    rw [JsNum.num_div _ _ (by norm_num : (1 : ℚ) ≠ 0), JsNum.num_add,
      JsNum.num_div _ _ (ne_of_gt (by nlinarith : (0 : ℚ) < 1 + g' / 1)), JsNum.num_sub]
    have hstep : (i : ℤ) + 1 = ((i + 1 : ℕ) : ℤ) := by push_cast; ring
    rw [hstep]
    have harr' : ∀ v ∈ jsSetNum arr (i : ℤ) (JsNum.num (100 - 100 / (1 + g' / 1))),
        v = JsNum.nan ∨ ∃ q, v = JsNum.num q ∧ q < 100 := by
      intro v hv
      rw [jsSetNum, if_pos (by omega : (0 : ℤ) ≤ (i : ℤ))] at hv
      rcases List.mem_or_eq_of_mem_set hv with h | h
      · exact harr v h
      · refine Or.inr ⟨100 - 100 / (1 + g' / 1), h, ?_⟩
        have : 0 < 100 / (1 + g' / 1) := by
          apply div_pos (by norm_num) (by nlinarith)
        linarith
    exact ih (i + 1) g' _ (by omega) (by omega) hgpos harr'

/-- C4 counterexample: the strictly rising series `[1,2,3,4]` with period 2
has `avgLoss = 0` from the seed on, yet `calculateRSI` yields 50 — not 100 —
at both defined indices: the `avgLoss === 0 ? 1 : avgLoss` guard substitutes
the *divisor* 1, giving `RSI = 100 − 100/(1 + avgGain)`, which is not the
saturation value 100 the claim asserts. -/
theorem calculateRSI_rising_counterexample :
    calculateRSI (mkSeries [1, 2, 3, 4]) 2 =
      Except.ok [JsNum.nan, JsNum.nan, JsNum.num 50, JsNum.num 50] ∧
    JsNum.num 50 ≠ JsNum.num 100 := by
  constructor
  · norm_num [calculateRSI, rsiSeedLoop, rsiMainLoop, jsGetClose, jsSetNum, mkSeries,
      List.enum, List.enumFrom, JsNum.sub, JsNum.add, JsNum.neg, JsNum.gt, JsNum.lt,
      JsNum.mul, JsNum.div, JsNum.abs,
      show Int.toNat 1 = 1 from rfl, show Int.toNat 2 = 2 from rfl,
      show Int.toNat 3 = 3 from rfl, show Int.toNat 0 = 0 from rfl,
      List.replicate_succ, List.set_cons_zero, List.set_cons_succ]
  · simp only [ne_eq, JsNum.num.injEq]
    norm_num

/-- C4 (amended): on a strictly rising rational price series of at least 4
points with period 2, the seed step indeed produces `avgLoss = 0`, but the
division-by-zero guard substitutes 1 for the zero average loss, so every
defined RSI entry equals `100 − 100/(1 + avgGain)` and is strictly *below*
100 (it is never the saturation value 100). -/
theorem calculateRSI_rising_below_100 (data : List MarketData) (qs : List ℚ)
    (hdq : data.map (fun d => d.close) = qs.map JsNum.num)
    (hchain : qs.Chain' (· < ·)) (hlen : 4 ≤ qs.length) :
    (∃ g, 0 < g ∧
      rsiSeedLoop data (JsNum.num 0) (JsNum.num 0) 1 (Int.toNat 2) =
        .ok (JsNum.num g, JsNum.num 0)) ∧
    ∃ arr, calculateRSI data 2 = .ok arr ∧
      ∀ v ∈ arr, v = JsNum.nan ∨ ∃ q, v = JsNum.num q ∧ q < 100 := by
  have hdlen : data.length = qs.length := by
    have := congrArg List.length hdq; simpa using this
  obtain ⟨G, hseed, hGle, hGlt⟩ := rsiSeedLoop_rising data qs hdq hchain 2 1 0
    (le_refl 1) (by omega)
  have hG : 0 < G := hGlt (by norm_num)
  have hcast1 : ((1 : ℕ) : ℤ) = (1 : ℤ) := by norm_num
  rw [hcast1] at hseed
  have htn : Int.toNat 2 = 2 := rfl
  constructor
  · exact ⟨G, hG, by rw [htn]; exact hseed⟩
  · rw [calculateRSI, if_neg (by omega : ¬ ((data.length : ℤ) ≤ 2)), htn, hseed]
    dsimp only
    rw [JsNum.num_div _ _ (by norm_num), JsNum.num_div _ _ (by norm_num)]
    simp only [show ((2 : ℤ) : ℚ) = (2 : ℚ) from by norm_num]
    rw [show (0 : ℚ) / 2 = 0 from by norm_num, if_pos rfl]
    rw [JsNum.num_div _ _ (by norm_num : (1 : ℚ) ≠ 0), JsNum.num_add,
      JsNum.num_div _ _ (ne_of_gt (by positivity : (0 : ℚ) < 1 + G / 2 / 1)),
      JsNum.num_sub]
    have harr1 : ∀ v ∈ jsSetNum (List.replicate data.length JsNum.nan) 2
        (JsNum.num (100 - 100 / (1 + G / 2 / 1))),
        v = JsNum.nan ∨ ∃ q, v = JsNum.num q ∧ q < 100 := by
      intro v hv
      rw [jsSetNum, if_pos (by norm_num : (0 : ℤ) ≤ 2)] at hv
      rcases List.mem_or_eq_of_mem_set hv with h | h
      · exact Or.inl (List.eq_of_mem_replicate h)
      · refine Or.inr ⟨_, h, ?_⟩
        have : 0 < 100 / (1 + G / 2 / 1) := by positivity
        linarith
    have hfuel : ((data.length : ℤ) - (2 + 1)).toNat = qs.length - 3 := by omega
    have hidx : (2 : ℤ) + 1 = ((3 : ℕ) : ℤ) := by norm_num
    rw [hfuel, hidx]
    exact rsiMainLoop_rising data qs hdq hchain (qs.length - 3) 3 (G / 2) _
      (by omega) (by omega) (by positivity) harr1

/-- C4 witness: the amended theorem applied to the concrete rising series
`[1,2,3,4]`. -/
theorem calculateRSI_rising_below_100_witness :
    (∃ g, 0 < g ∧
      rsiSeedLoop (mkSeries [1, 2, 3, 4]) (JsNum.num 0) (JsNum.num 0) 1
        (Int.toNat 2) = .ok (JsNum.num g, JsNum.num 0)) ∧
    ∃ arr, calculateRSI (mkSeries [1, 2, 3, 4]) 2 = .ok arr ∧
      ∀ v ∈ arr, v = JsNum.nan ∨ ∃ q, v = JsNum.num q ∧ q < 100 :=
  calculateRSI_rising_below_100 (mkSeries [1, 2, 3, 4]) [1, 2, 3, 4]
    (by norm_num [mkSeries, List.enum, List.enumFrom])
    (by norm_num) (by norm_num)

/-! ## Error propagation: the only error the engine ever produces is the
thrown `TypeError` -/

lemma jsGetClose_error (data : List MarketData) (i : ℤ) (e : EngineError)
    (h : jsGetClose data i = .error e) : e = .TypeError := by
  rw [jsGetClose] at h
  split_ifs at h
  · cases hg : data.get? i.toNat <;> rw [hg] at h <;> simp_all
  · simp_all

lemma rsiSeedLoop_error (data : List MarketData) :
    ∀ (fuel : ℕ) (g l : JsNum) (i : ℤ) (e : EngineError),
    rsiSeedLoop data g l i fuel = .error e → e = .TypeError := by
  intro fuel
  induction fuel with
  | zero => intro g l i e h; simp [rsiSeedLoop] at h
  | succ n ih =>
    intro g l i e h
    rw [rsiSeedLoop] at h
    cases h1 : jsGetClose data i with
    | error e1 =>
      rw [h1] at h
      simp only [Except.error.injEq] at h
      exact h ▸ jsGetClose_error data i e1 h1
    | ok c =>
      cases h2 : jsGetClose data (i - 1) with
      | error e2 =>
        rw [h1, h2] at h
        simp only [Except.error.injEq] at h
        exact h ▸ jsGetClose_error data (i - 1) e2 h2
      | ok p =>
        rw [h1, h2] at h
        dsimp only at h
        split_ifs at h <;> exact ih _ _ _ _ h

lemma rsiMainLoop_error (data : List MarketData) (period : ℤ) :
    ∀ (fuel : ℕ) (g l : JsNum) (i : ℤ) (arr : List JsNum) (e : EngineError),
    rsiMainLoop data period g l i fuel arr = .error e → e = .TypeError := by
  intro fuel
  induction fuel with
  | zero => intro g l i arr e h; simp [rsiMainLoop] at h
  | succ n ih =>
    intro g l i arr e h
    rw [rsiMainLoop] at h
    cases h1 : jsGetClose data i with
    | error e1 =>
      rw [h1] at h
      simp only [Except.error.injEq] at h
      exact h ▸ jsGetClose_error data i e1 h1
    | ok c =>
      cases h2 : jsGetClose data (i - 1) with
      | error e2 =>
        rw [h1, h2] at h
        simp only [Except.error.injEq] at h
        exact h ▸ jsGetClose_error data (i - 1) e2 h2
      | ok p =>
        rw [h1, h2] at h
        exact ih _ _ _ _ _ h

lemma calculateRSI_error (data : List MarketData) (period : ℤ) (e : EngineError)
    (h : calculateRSI data period = .error e) : e = .TypeError := by
  rw [calculateRSI] at h
  split_ifs at h
  cases hs : rsiSeedLoop data (JsNum.num 0) (JsNum.num 0) 1 period.toNat with
  | error e1 =>
    rw [hs] at h
    simp only [Except.error.injEq] at h
    exact h ▸ rsiSeedLoop_error data _ _ _ _ _ hs
  | ok gl =>
    rw [hs] at h
    exact rsiMainLoop_error data period _ _ _ _ _ _ h

lemma runBacktest_error (data : List MarketData) (config : StrategyConfig)
    (aiSignals : Option (List AiSignal)) (e : EngineError)
    (h : runBacktest data config aiSignals = .error e) : e = .TypeError := by
  rw [runBacktest] at h
  cases hr : calculateRSI data config.rsiPeriod with
  | error e1 =>
    rw [hr] at h
    simp only [Except.error.injEq] at h
    exact h ▸ calculateRSI_error data _ e1 hr
  | ok rsi =>
    rw [hr] at h
    dsimp only at h
    cases hl : data.getLast? with
    | none => rw [hl] at h; simp_all
    | some last => rw [hl] at h; simp_all

/-! ## Sample configurations for concrete runs -/

/-- A plain valid ALGO configuration. -/
def cfgBase : StrategyConfig :=
  { mode := .ALGO, initialCapital := 1000, shortWindow := 2, longWindow := 3,
    rsiPeriod := 14, rsiOverbought := 70, rsiOversold := 30, useRsiFilter := false }

/-- A configuration violating the spec's constraints: all windows and the
capital are non-positive. -/
def cfgZero : StrategyConfig :=
  { mode := .ALGO, initialCapital := 0, shortWindow := 0, longWindow := 0,
    rsiPeriod := 0, rsiOverbought := 70, rsiOversold := 30, useRsiFilter := false }

/-- A plain AI-mode configuration. -/
def cfgAI : StrategyConfig :=
  { mode := .AI, initialCapital := 1000, shortWindow := 2, longWindow := 3,
    rsiPeriod := 14, rsiOverbought := 70, rsiOversold := 30, useRsiFilter := false }

/-- C2 counterexample: on the empty series `runBacktest` does not produce an
`InvalidInput` error — there is no input validation; what actually happens is
a thrown `TypeError` from reading `data[data.length - 1].close` after the
loop. -/
theorem runBacktest_empty_counterexample :
    runBacktest [] cfgBase none = Except.error EngineError.TypeError ∧
    runBacktest [] cfgBase none ≠ Except.error EngineError.InvalidInput := by
  have h : runBacktest [] cfgBase none = Except.error EngineError.TypeError := rfl
  refine ⟨h, ?_⟩
  rw [h]
  simp

/-- C2 (amended): on the empty series `runBacktest` never returns a
`BacktestResult`, but it does not fail fast with `InvalidInput` either: for
every configuration and signal list it throws a `TypeError` (the read of the
last close — `data[-1].close` — on the empty array). -/
theorem runBacktest_empty_type_error (config : StrategyConfig)
    (aiSignals : Option (List AiSignal)) :
    runBacktest [] config aiSignals = Except.error EngineError.TypeError := by
  cases hr : runBacktest [] config aiSignals with
  | error e => rw [runBacktest_error [] config aiSignals e hr]
  | ok res =>
    exfalso
    rw [runBacktest] at hr
    cases hc : calculateRSI [] config.rsiPeriod with
    | error e => rw [hc] at hr; exact Except.noConfusion hr
    | ok rsi =>
      rw [hc] at hr
      dsimp only at hr
      simp only [List.getLast?_nil] at hr
      exact Except.noConfusion hr

/-- C7 counterexample: a configuration violating every constraint (zero
windows, zero RSI period, zero capital) is not rejected: `runBacktest` on a
one-point series returns an ordinary `BacktestResult` instead of failing
fast with `InvalidConfig`. -/
theorem runBacktest_config_counterexample :
    cfgZero.shortWindow ≤ 0 ∧ cfgZero.longWindow ≤ 0 ∧ cfgZero.rsiPeriod ≤ 0 ∧
    cfgZero.initialCapital = 0 ∧
    (runBacktest (mkSeries [100]) cfgZero none).isOk = true ∧
    runBacktest (mkSeries [100]) cfgZero none ≠
      Except.error EngineError.InvalidConfig := by
  have h : (runBacktest (mkSeries [100]) cfgZero none).isOk = true := rfl
  refine ⟨by decide, by decide, by decide, rfl, h, ?_⟩
  intro hc
  rw [hc] at h
  exact absurd h (by decide)

/-- C7 (amended): `runBacktest` performs no configuration validation at all:
no run ever fails with `InvalidConfig` (the only error the engine can raise
is the `TypeError` thrown on out-of-range reads); offending values are
passed to the indicators and the loop unchanged. -/
theorem runBacktest_never_invalid_config (data : List MarketData)
    (config : StrategyConfig) (aiSignals : Option (List AiSignal)) :
    runBacktest data config aiSignals ≠ Except.error EngineError.InvalidConfig := by
  intro h
  have := runBacktest_error data config aiSignals _ h
  exact EngineError.noConfusion this

/-- A bare price point (the engine reads only `date` and `close`). -/
def pt (d : String) (c : ℚ) : MarketData :=
  { date := d, close := JsNum.num c, open_ := JsNum.num c, high := JsNum.num c,
    low := JsNum.num c, volume := JsNum.num 0 }

/-- C3 counterexample: at a bar with close price 0 an AI BUY decision fires
and `cash > price` holds (1000 > 0), yet no trade is recorded and the cash is
unchanged: `amountToBuy` is `Infinity`, `cost = Infinity · 0 = NaN`, and the
`cost <= cash` guard fails, so the 99% conversion the claim promises does not
happen. -/
theorem executeTrade_zero_price_counterexample :
    resolveSignal cfgAI [JsNum.nan] [JsNum.nan] [JsNum.nan]
      (buildAiMap cfgAI (some [⟨"a", SignalType.BUY, "go"⟩])) 0 "a" =
      (SignalType.BUY, "go") ∧
    (JsNum.num 1000).gt (JsNum.num 0) = true ∧
    (runBacktest [pt "a" 0] cfgAI (some [⟨"a", SignalType.BUY, "go"⟩])).map
      (fun r => r.trades) = Except.ok [] ∧
    (runBacktest [pt "a" 0] cfgAI (some [⟨"a", SignalType.BUY, "go"⟩])).map
      (fun r => r.finalBalance) = Except.ok (JsNum.num 1000) := by
  refine ⟨rfl, rfl, ?_, ?_⟩ <;>
  norm_num [runBacktest, calculateRSI, calculateSMA, rsiSeedLoop, rsiMainLoop,
    jsGetClose, jsSetNum, jsSlice, jsIndex, buildAiMap, jsMapSet, jsMapGet,
    resolveSignal, backtestStep, executeTrade, initState, buildResult, pt,
    cfgAI, sellTradesCount, profitableTradesCount, isProfitableSell,
    findEntryPrice, entryPriceFrom, List.enum, List.enumFrom,
    JsNum.add, JsNum.sub, JsNum.neg, JsNum.mul, JsNum.div, JsNum.abs,
    JsNum.gt, JsNum.lt, JsNum.le, JsNum.ge,
    show Int.toNat 0 = 0 from rfl, show Int.toNat 1 = 1 from rfl,
    List.replicate_succ, List.set_cons_zero, List.set_cons_succ, Except.map]

/-- C3 (amended): at a step whose close price is a *positive* rational `p`,
a BUY with `cash > price` converts exactly 99% of the cash: cash becomes 1%
of its prior value, holdings grow by `(0.99·cash)/p`, and the appended trade
records `balanceAfter = cash + holdings·price` after the update; with
`cash ≤ price` the state is returned unchanged and no trade is recorded.
(The original claim, without `price > 0`, is refuted by
the zero-price counterexample.) -/
theorem executeTrade_buy_spec (s : SimState) (c h p : ℚ) (reason date : String)
    (hc : s.cash = JsNum.num c) (hh : s.holdings = JsNum.num h) (hp : 0 < p) :
    (p < c → executeTrade s SignalType.BUY reason date (JsNum.num p) =
      { s with
        cash := JsNum.num (c / 100)
        holdings := JsNum.num (h + 99 / 100 * c / p)
        trades := s.trades ++ [{
          date := date
          type := SignalType.BUY
          price := JsNum.num p
          amount := JsNum.num (99 / 100 * c / p)
          balanceAfter := JsNum.num (c / 100 + (h + 99 / 100 * c / p) * p)
          reason := if reason = "" then "Technical Signal" else reason }] }) ∧
    (c ≤ p → executeTrade s SignalType.BUY reason date (JsNum.num p) = s) := by
  constructor
  · intro hcp
    have hcpos : 0 < c := hp.trans hcp
    have hgt : (JsNum.num c).gt (JsNum.num p) = true := by
      rw [JsNum.num_gt]; simpa using hcp
    have hamt : (0 : ℚ) < c * (99 / 100) / p := by positivity
    have hcost : c * (99 / 100) / p * p ≤ c := by
      rw [div_mul_cancel₀ _ (ne_of_gt hp)]
      nlinarith
    have e1 : c - c * (99 / 100) / p * p = c / 100 := by
      field_simp
      ring
    have e2 : c * (99 / 100) / p = 99 / 100 * c / p := by ring_nf
    have hamt2 : (0 : ℚ) < 99 / 100 * c / p := e2 ▸ hamt
    have hcost2 : 99 / 100 * c / p * p ≤ c := by rw [← e2]; exact hcost
    have e3 : c - 99 / 100 * c / p * p = c / 100 := by rw [← e2]; exact e1
    simp only [executeTrade, hc, hh, JsNum.num_mul,
      JsNum.num_div _ _ (ne_of_gt hp), hgt, and_true, if_pos,
      JsNum.num_gt, JsNum.num_le, JsNum.num_sub, JsNum.num_add,
      decide_eq_true_eq, e2, hamt2, hcost2, if_true, e3]
  · intro hpc
    rw [executeTrade,
      if_neg (by
        rw [hc, JsNum.num_gt]
        simp only [decide_eq_true_eq, true_and, not_lt]
        exact hpc),
      if_neg (by simp)]

/-- C3 witness: a BUY at price 10 with cash 1000 (no holdings) converts 99%
of the cash: cash `1000 → 10`, holdings `0 → 99`, with
`balanceAfter = 10 + 99·10`. -/
theorem executeTrade_buy_spec_witness :
    (0 : ℚ) < 10 ∧ (10 : ℚ) < 1000 ∧
    executeTrade ⟨JsNum.num 1000, JsNum.num 0, [], [], JsNum.num 1000, JsNum.num 0⟩
      SignalType.BUY "" "d" (JsNum.num 10) =
      { cash := JsNum.num (1000 / 100)
        holdings := JsNum.num (0 + 99 / 100 * 1000 / 10)
        trades := [] ++ [{
          date := "d"
          type := SignalType.BUY
          price := JsNum.num 10
          amount := JsNum.num (99 / 100 * 1000 / 10)
          balanceAfter := JsNum.num (1000 / 100 + (0 + 99 / 100 * 1000 / 10) * 10)
          reason := if "" = "" then "Technical Signal" else "" }]
        history := []
        peakBalance := JsNum.num 1000
        maxDrawdown := JsNum.num 0 } := by
  refine ⟨by norm_num, by norm_num, ?_⟩
  exact (executeTrade_buy_spec ⟨JsNum.num 1000, JsNum.num 0, [], [],
    JsNum.num 1000, JsNum.num 0⟩ 1000 0 10 "" "d" rfl rfl (by norm_num)).1
    (by norm_num)

/-! ## C1: consecutive trades -/

/-- No two adjacent trades in the list are both SELLs. -/
def noConsecutiveSells : List Trade → Bool
  | [] => true
  | [_] => true
  | a :: b :: rest =>
    !(a.type = SignalType.SELL && b.type = SignalType.SELL) &&
      noConsecutiveSells (b :: rest)

/-- Whether the last recorded trade is a SELL. -/
def lastIsSell (l : List Trade) : Bool :=
  match l.getLast? with
  | some t => t.type = SignalType.SELL
  | none => false

lemma noConsecutiveSells_cons_cons (a b : Trade) (rest : List Trade) :
    noConsecutiveSells (a :: b :: rest) =
      (!(a.type = SignalType.SELL && b.type = SignalType.SELL) &&
        noConsecutiveSells (b :: rest)) := rfl

lemma lastIsSell_append (l : List Trade) (t : Trade) :
    lastIsSell (l ++ [t]) = decide (t.type = SignalType.SELL) := by
  rw [lastIsSell, List.getLast?_concat]

lemma noConsecutiveSells_append : ∀ (l : List Trade) (t : Trade),
    noConsecutiveSells l = true →
    (lastIsSell l = true → t.type ≠ SignalType.SELL) →
    noConsecutiveSells (l ++ [t]) = true
  | [], t, _, _ => rfl
  | [a], t, _, h => by
    rw [List.cons_append, List.nil_append, noConsecutiveSells_cons_cons,
      Bool.and_eq_true, Bool.not_eq_true', Bool.and_eq_false_iff]
    refine ⟨?_, rfl⟩
    by_cases ha : a.type = SignalType.SELL
    · have := h (by simp [lastIsSell, ha])
      right
      simpa using this
    · left
      simpa using ha
  | a :: b :: l, t, hl, h => by
    rw [noConsecutiveSells_cons_cons, Bool.and_eq_true] at hl
    have hrec := noConsecutiveSells_append (b :: l) t hl.2 (by
      intro hlast
      refine h ?_
      rw [lastIsSell, List.getLast?_cons_cons]
      rw [lastIsSell] at hlast
      exact hlast)
    rw [List.cons_append] at hrec
    rw [List.cons_append, List.cons_append, noConsecutiveSells_cons_cons,
      Bool.and_eq_true]
    exact ⟨hl.1, hrec⟩

/-- Loop invariant for C1: the recorded trades have no adjacent SELL pair,
and right after a SELL the holdings are zero. -/
def TradeInv (s : SimState) : Prop :=
  noConsecutiveSells s.trades = true ∧
  (lastIsSell s.trades = true → s.holdings = JsNum.num 0)

lemma executeTrade_tradeInv (s : SimState) (sig : SignalType)
    (reason date : String) (price : JsNum) (h : TradeInv s) :
    TradeInv (executeTrade s sig reason date price) := by
  simp only [executeTrade]
  by_cases h1 : sig = SignalType.BUY ∧ s.cash.gt price = true
  · rw [if_pos h1]
    by_cases h2 : ((s.cash.mul (JsNum.num (99 / 100))).div price).gt
        (JsNum.num 0) = true
    · rw [if_pos h2]
      by_cases h3 : (((s.cash.mul (JsNum.num (99 / 100))).div price).mul
          price).le s.cash = true
      · rw [if_pos h3]
        constructor
        · exact noConsecutiveSells_append s.trades _ h.1 (fun _ => by simp)
        · intro hlast
          rw [lastIsSell_append] at hlast
          simp at hlast
      · rw [if_neg h3]
        exact h
    · rw [if_neg h2]
      exact h
  · rw [if_neg h1]
    by_cases h4 : sig = SignalType.SELL ∧ s.holdings.gt (JsNum.num 0) = true
    · rw [if_pos h4]
      obtain ⟨h4a, h4b⟩ := h4
      constructor
      · refine noConsecutiveSells_append s.trades _ h.1 ?_
        intro hlast
        exfalso
        rw [h.2 hlast, JsNum.num_gt] at h4b
        simp only [decide_eq_true_eq] at h4b
        exact absurd h4b (by norm_num)
      · intro _
        rfl
    · rw [if_neg h4]
      exact h

lemma backtestStep_tradeInv (config : StrategyConfig)
    (shortSMA longSMA rsi : List JsNum) (aiMap : List (String × AiSignal))
    (s : SimState) (p : ℕ × MarketData) (h : TradeInv s) :
    TradeInv (backtestStep config shortSMA longSMA rsi aiMap s p) := by
  rw [backtestStep]
  split_ifs
  · exact h
  · exact executeTrade_tradeInv s _ _ _ _ h

lemma foldl_tradeInv (config : StrategyConfig)
    (shortSMA longSMA rsi : List JsNum) (aiMap : List (String × AiSignal)) :
    ∀ (l : List (ℕ × MarketData)) (s : SimState), TradeInv s →
    TradeInv (l.foldl (backtestStep config shortSMA longSMA rsi aiMap) s)
  | [], s, h => h
  | p :: l, s, h => by
    rw [List.foldl_cons]
    exact foldl_tradeInv config shortSMA longSMA rsi aiMap l _
      (backtestStep_tradeInv config shortSMA longSMA rsi aiMap s p h)

/-- C1 (amended): the trade list of every backtest result contains no two
consecutive SELL trades (a SELL zeroes the holdings, and another SELL needs
positive holdings again, which only an intervening BUY can produce).  Two
consecutive BUY trades, by contrast, are possible — see the counterexample —
because BUY is guarded by `cash > price`, not by the position being flat. -/
theorem runBacktest_no_consecutive_sells (data : List MarketData)
    (config : StrategyConfig) (aiSignals : Option (List AiSignal))
    (res : BacktestResult) (h : runBacktest data config aiSignals = .ok res) :
    noConsecutiveSells res.trades = true := by
  rw [runBacktest] at h
  cases hr : calculateRSI data config.rsiPeriod with
  | error e => rw [hr] at h; exact Except.noConfusion h
  | ok rsi =>
    rw [hr] at h
    dsimp only at h
    cases hl : data.getLast? with
    | none => rw [hl] at h; exact Except.noConfusion h
    | some last =>
      rw [hl] at h
      rw [Except.ok.injEq] at h
      have hinv := foldl_tradeInv config (calculateSMA data config.shortWindow)
        (calculateSMA data config.longWindow) rsi
        (buildAiMap config aiSignals) data.enum (initState config)
        ⟨rfl, fun _ => rfl⟩
      rw [← h]
      exact hinv.1

/-- C1 witness: a BUY-then-SELL run satisfies the no-consecutive-SELLs
property. -/
theorem runBacktest_no_consecutive_sells_witness :
    noConsecutiveSells (((runBacktest [pt "a" 1, pt "b" 2] cfgAI
      (some [⟨"a", SignalType.BUY, ""⟩, ⟨"b", SignalType.SELL, ""⟩])).toOption.getD
        dummyResult).trades) = true :=
  runBacktest_no_consecutive_sells [pt "a" 1, pt "b" 2] cfgAI
    (some [⟨"a", SignalType.BUY, ""⟩, ⟨"b", SignalType.SELL, ""⟩])
    ((runBacktest [pt "a" 1, pt "b" 2] cfgAI
      (some [⟨"a", SignalType.BUY, ""⟩, ⟨"b", SignalType.SELL, ""⟩])).toOption.getD
        dummyResult) rfl


set_option maxHeartbeats 1000000 in
/-- C1 counterexample: with close prices `[1, 1]`, capital 1000 and BUY
signals on both days, the engine records two consecutive BUY trades: after
the first all-in BUY, `cash = 10` still exceeds the price 1, so the second
BUY executes even though a position is already held — it is not a no-op as
the claim asserts. -/
theorem runBacktest_double_buy_counterexample :
    (runBacktest [pt "a" 1, pt "b" 1] cfgAI
      (some [⟨"a", SignalType.BUY, ""⟩, ⟨"b", SignalType.BUY, ""⟩])).map
      (fun r => r.trades.map (fun t => t.type)) =
      Except.ok [SignalType.BUY, SignalType.BUY] := by
  rw [runBacktest]
  norm_num [calculateRSI, calculateSMA, cfgAI, List.replicate_succ, jsSlice,
    List.enum, List.enumFrom, pt, Except.map,
    show Int.toNat 0 = 0 from rfl, show Int.toNat 1 = 1 from rfl,
    show Int.toNat 2 = 2 from rfl,
    JsNum.add, JsNum.div, backtestStep, resolveSignal, buildAiMap, jsMapSet,
    jsMapGet, initState, jsIndex, executeTrade, JsNum.gt, JsNum.lt, JsNum.le,
    JsNum.ge, JsNum.mul, JsNum.sub, JsNum.neg, buildResult, sellTradesCount,
    profitableTradesCount, isProfitableSell, findEntryPrice, entryPriceFrom,
    (by decide : ¬ ("a" = "b")), (by decide : ¬ ("b" = "a")),
    (by decide : ¬ (StrategyMode.AI = StrategyMode.ALGO)), decide_False,
    decide_True]

/-! ## C6: conservation (cash and holdings stay non-negative) -/

/-- Non-negativity invariant of the loop state. -/
def MoneyInv (s : SimState) : Prop :=
  ∃ c hq : ℚ, s.cash = JsNum.num c ∧ 0 ≤ c ∧
    s.holdings = JsNum.num hq ∧ 0 ≤ hq

lemma executeTrade_moneyInv (s : SimState) (sig : SignalType)
    (reason date : String) (price : JsNum)
    (hprice : ∃ q, price = JsNum.num q ∧ 0 ≤ q) (h : MoneyInv s) :
    MoneyInv (executeTrade s sig reason date price) := by
  obtain ⟨c, hq, hc, hc0, hh, hh0⟩ := h
  obtain ⟨q, hpq, hq0⟩ := hprice
  subst hpq
  simp only [executeTrade]
  by_cases h1 : sig = SignalType.BUY ∧ s.cash.gt (JsNum.num q) = true
  · rw [if_pos h1]
    have hqc : q < c := by
      have := h1.2
      rw [hc, JsNum.num_gt, decide_eq_true_eq] at this
      exact this
    have hcpos : 0 < c := lt_of_le_of_lt hq0 hqc
    rw [hc, hh, JsNum.num_mul]
    by_cases hq0' : q = 0
    · subst hq0'
      have hdiv : (JsNum.num (c * (99 / 100))).div (JsNum.num 0) = JsNum.inf := by
        rw [JsNum.div]
        rw [if_pos rfl, if_neg (by positivity), if_pos (by positivity)]
      rw [hdiv]
      have hcost : (JsNum.inf.mul (JsNum.num 0)).le (JsNum.num c) = false := by
        rw [JsNum.mul, if_neg (by norm_num), if_neg (by norm_num)]
        rfl
      rw [show JsNum.inf.gt (JsNum.num 0) = true from rfl, if_pos rfl, hcost]
      rw [if_neg (by simp)]
      exact ⟨c, hq, hc, hc0, hh, hh0⟩
    · have hqpos : 0 < q := lt_of_le_of_ne hq0 (Ne.symm hq0')
      rw [JsNum.num_div _ _ hq0']
      by_cases h2 : (0 : ℚ) < c * (99 / 100) / q
      · rw [JsNum.num_gt, if_pos (by simpa using h2)]
        rw [JsNum.num_mul, JsNum.num_le]
        have hcost : c * (99 / 100) / q * q ≤ c := by
          rw [div_mul_cancel₀ _ hq0']
          nlinarith
        rw [if_pos (by simpa using hcost)]
        rw [JsNum.num_sub, JsNum.num_add]
        refine ⟨c - c * (99 / 100) / q * q, hq + c * (99 / 100) / q, rfl, ?_, rfl, ?_⟩
        · rw [div_mul_cancel₀ _ hq0']
          nlinarith
        · nlinarith
      · rw [JsNum.num_gt, if_neg (by simpa using h2)]
        exact ⟨c, hq, hc, hc0, hh, hh0⟩
  · rw [if_neg h1]
    by_cases h4 : sig = SignalType.SELL ∧ s.holdings.gt (JsNum.num 0) = true
    · rw [if_pos h4]
      have hhpos : 0 < hq := by
        have := h4.2
        rw [hh, JsNum.num_gt, decide_eq_true_eq] at this
        exact this
      rw [hc, hh, JsNum.num_mul, JsNum.num_add]
      exact ⟨c + hq * q, 0, rfl, by nlinarith, rfl, le_refl 0⟩
    · rw [if_neg h4]
      exact ⟨c, hq, hc, hc0, hh, hh0⟩

lemma backtestStep_moneyInv (config : StrategyConfig)
    (shortSMA longSMA rsi : List JsNum) (aiMap : List (String × AiSignal))
    (s : SimState) (p : ℕ × MarketData)
    (hp : ∃ q, p.2.close = JsNum.num q ∧ 0 ≤ q) (h : MoneyInv s) :
    MoneyInv (backtestStep config shortSMA longSMA rsi aiMap s p) := by
  rw [backtestStep]
  split_ifs
  · exact h
  · exact executeTrade_moneyInv s _ _ _ _ hp h

lemma foldl_moneyInv (config : StrategyConfig)
    (shortSMA longSMA rsi : List JsNum) (aiMap : List (String × AiSignal)) :
    ∀ (l : List (ℕ × MarketData)),
    (∀ p ∈ l, ∃ q, p.2.close = JsNum.num q ∧ 0 ≤ q) →
    ∀ s, MoneyInv s →
    MoneyInv (l.foldl (backtestStep config shortSMA longSMA rsi aiMap) s)
  | [], _, s, h => h
  | p :: l, hl, s, h => by
    rw [List.foldl_cons]
    exact foldl_moneyInv config shortSMA longSMA rsi aiMap l
      (fun x hx => hl x (List.mem_cons_of_mem p hx)) _
      (backtestStep_moneyInv config shortSMA longSMA rsi aiMap s p
        (hl p (List.mem_cons_self p l)) h)

/-- C6: if every close of the series is a non-negative rational and
`initialCapital > 0`, then the loop starts at `cash = initialCapital`,
`holdings = 0`, and after every number `k` of loop iterations both `cash`
and `holdings` are non-negative rationals — for any indicator arrays and
signal map, in particular the ones `runBacktest` computes. -/
theorem runBacktest_conservation (data : List MarketData)
    (config : StrategyConfig) (shortSMA longSMA rsi : List JsNum)
    (aiMap : List (String × AiSignal))
    (hclose : ∀ d ∈ data, ∃ q, d.close = JsNum.num q ∧ 0 ≤ q)
    (hcap : 0 < config.initialCapital) :
    (initState config).cash = JsNum.num config.initialCapital ∧
    (initState config).holdings = JsNum.num 0 ∧
    ∀ k, MoneyInv (simStateAfter config shortSMA longSMA rsi aiMap data k) := by
  refine ⟨rfl, rfl, fun k => ?_⟩
  rw [simStateAfter]
  refine foldl_moneyInv config shortSMA longSMA rsi aiMap _ ?_ _
    ⟨config.initialCapital, 0, rfl, le_of_lt hcap, rfl, le_refl 0⟩
  intro p hp
  refine hclose p.2 ?_
  have hmem : p ∈ data.enum := List.take_subset k data.enum hp
  have : p.2 ∈ data.enum.map Prod.snd := List.mem_map_of_mem Prod.snd hmem
  rwa [List.enum_map_snd] at this

/-- C6 witness: one step on a single bar with close 5 keeps cash and
holdings non-negative. -/
theorem runBacktest_conservation_witness :
    (initState cfgBase).cash = JsNum.num cfgBase.initialCapital ∧
    (initState cfgBase).holdings = JsNum.num 0 ∧
    ∀ k, MoneyInv (simStateAfter cfgBase [] [] [] [] [pt "a" 5] k) :=
  runBacktest_conservation [pt "a" 5] cfgBase [] [] [] []
    (by
      intro d hd
      rw [List.mem_singleton] at hd
      exact ⟨5, by rw [hd]; rfl, by norm_num⟩)
    (by norm_num [cfgBase])

/-! ## C8: ALGO warm-up -/

/-- C8: in ALGO mode, through the whole warm-up prefix
(`i < max(longWindow, rsiPeriod)`) the loop records no trade, keeps
`cash = initialCapital` and `holdings = 0`, and appends for each bar exactly
one history entry whose balance is the current cash — for any indicator
arrays and signal map, in particular the ones `runBacktest` computes. -/
theorem algo_warmup_hold (data : List MarketData) (config : StrategyConfig)
    (shortSMA longSMA rsi : List JsNum) (aiMap : List (String × AiSignal))
    (hmode : config.mode = StrategyMode.ALGO) :
    ∀ k, k ≤ (max config.longWindow config.rsiPeriod).toNat →
      (simStateAfter config shortSMA longSMA rsi aiMap data k).trades = [] ∧
      (simStateAfter config shortSMA longSMA rsi aiMap data k).cash =
        JsNum.num config.initialCapital ∧
      (simStateAfter config shortSMA longSMA rsi aiMap data k).holdings =
        JsNum.num 0 ∧
      (simStateAfter config shortSMA longSMA rsi aiMap data k).history =
        (data.take k).map (fun d =>
          { date := d.date, balance := JsNum.num config.initialCapital }) := by
  intro k
  induction k with
  | zero =>
    intro _
    exact ⟨rfl, rfl, rfl, rfl⟩
  | succ n ih =>
    intro hn
    obtain ⟨ht, hc, hh, hhist⟩ := ih (by omega)
    rw [simStateAfter] at *
    rw [List.take_succ, List.take_succ]
    cases hg : data[n]? with
    | none =>
      have hgeE : data.enum[n]? = none := by
        rw [List.getElem?_enum, hg]
        rfl
      rw [hgeE]
      simp only [Option.toList_none, List.append_nil]
      exact ⟨ht, hc, hh, hhist⟩
    | some d =>
      have hgeE : data.enum[n]? = some (n, d) := by
        rw [List.getElem?_enum, hg]
        rfl
      rw [hgeE]
      simp only [Option.toList_some]
      rw [List.foldl_append, List.foldl_cons, List.foldl_nil]
      rw [backtestStep]
      rw [if_pos ⟨hmode, by
        show ((n, d).1 : ℤ) < max config.longWindow config.rsiPeriod
        have : 0 < (max config.longWindow config.rsiPeriod).toNat := by omega
        omega⟩]
      refine ⟨ht, hc, hh, ?_⟩
      show _ ++ [_] = _
      rw [List.map_append, hhist, hc]
      rfl

/-- C8 witness: two warm-up bars under the base ALGO configuration
(`max(longWindow, rsiPeriod) = 14`). -/
theorem algo_warmup_hold_witness :
    2 ≤ (max cfgBase.longWindow cfgBase.rsiPeriod).toNat ∧
    (simStateAfter cfgBase [] [] [] [] [pt "a" 1, pt "b" 2] 2).trades = [] ∧
    (simStateAfter cfgBase [] [] [] [] [pt "a" 1, pt "b" 2] 2).cash =
      JsNum.num cfgBase.initialCapital ∧
    (simStateAfter cfgBase [] [] [] [] [pt "a" 1, pt "b" 2] 2).holdings =
      JsNum.num 0 ∧
    (simStateAfter cfgBase [] [] [] [] [pt "a" 1, pt "b" 2] 2).history =
      ([pt "a" 1, pt "b" 2].take 2).map (fun d =>
        { date := d.date, balance := JsNum.num cfgBase.initialCapital }) :=
  ⟨by decide, algo_warmup_hold [pt "a" 1, pt "b" 2] cfgBase [] [] [] [] rfl 2
    (by decide)⟩

/-! ## C10: history alignment -/

lemma executeTrade_history (s : SimState) (sig : SignalType)
    (reason date : String) (price : JsNum) :
    (executeTrade s sig reason date price).history = s.history := by
  simp only [executeTrade]
  split_ifs <;> rfl

lemma backtestStep_history_dates (config : StrategyConfig)
    (shortSMA longSMA rsi : List JsNum) (aiMap : List (String × AiSignal))
    (s : SimState) (p : ℕ × MarketData) :
    ((backtestStep config shortSMA longSMA rsi aiMap s p).history).map
        (fun e => e.date) =
      s.history.map (fun e => e.date) ++ [p.2.date] := by
  simp only [backtestStep]
  by_cases hcond : config.mode = StrategyMode.ALGO ∧
      ((p.1 : ℤ) < max config.longWindow config.rsiPeriod)
  · rw [if_pos hcond, List.map_append]
    rfl
  · rw [if_neg hcond]
    show ((executeTrade s _ _ _ _).history ++ [_]).map _ = _
    rw [List.map_append, executeTrade_history]
    rfl

lemma foldl_history_dates (config : StrategyConfig)
    (shortSMA longSMA rsi : List JsNum) (aiMap : List (String × AiSignal)) :
    ∀ (l : List (ℕ × MarketData)) (s : SimState),
    ((l.foldl (backtestStep config shortSMA longSMA rsi aiMap) s).history).map
        (fun e => e.date) =
      s.history.map (fun e => e.date) ++ l.map (fun p => p.2.date)
  | [], s => by simp
  | p :: l, s => by
    rw [List.foldl_cons, List.map_cons]
    rw [foldl_history_dates config shortSMA longSMA rsi aiMap l _,
      backtestStep_history_dates]
    simp

/-- C10: whenever `runBacktest` returns a result, its history has exactly one
entry per input bar, in order: the history's dates are precisely the series'
dates (in particular the lengths agree). -/
theorem runBacktest_history_aligned (data : List MarketData)
    (config : StrategyConfig) (aiSignals : Option (List AiSignal))
    (res : BacktestResult) (h : runBacktest data config aiSignals = .ok res) :
    res.history.length = data.length ∧
    res.history.map (fun e => e.date) = data.map (fun d => d.date) := by
  have hdates : res.history.map (fun e => e.date) = data.map (fun d => d.date) := by
    rw [runBacktest] at h
    cases hr : calculateRSI data config.rsiPeriod with
    | error e => rw [hr] at h; exact Except.noConfusion h
    | ok rsi =>
      rw [hr] at h
      dsimp only at h
      cases hl : data.getLast? with
      | none => rw [hl] at h; exact Except.noConfusion h
      | some last =>
        rw [hl, Except.ok.injEq] at h
        rw [← h]
        show ((data.enum.foldl _ (initState config)).history).map _ = _
        rw [foldl_history_dates]
        rw [show (initState config).history = [] from rfl, List.map_nil,
          List.nil_append]
        have : (fun p : ℕ × MarketData => p.2.date) =
            (fun d : MarketData => d.date) ∘ Prod.snd := rfl
        rw [this, ← List.map_map, List.enum_map_snd]
  constructor
  · have := congrArg List.length hdates
    simpa using this
  · exact hdates

/-- C10 witness: a concrete two-bar ALGO run has a two-entry history carrying
the bars' dates. -/
theorem runBacktest_history_aligned_witness :
    ((runBacktest [pt "u" 1, pt "v" 2] cfgBase none).toOption.getD
      dummyResult).history.length = 2 ∧
    ((runBacktest [pt "u" 1, pt "v" 2] cfgBase none).toOption.getD
      dummyResult).history.map (fun e => e.date) =
      [pt "u" 1, pt "v" 2].map (fun d => d.date) :=
  runBacktest_history_aligned [pt "u" 1, pt "v" 2] cfgBase none
    ((runBacktest [pt "u" 1, pt "v" 2] cfgBase none).toOption.getD dummyResult)
    rfl

/-! ## C9: win rate -/

/-- The claim's reading of the pairing: the price of the nearest BUY
preceding trade index `i` (`0` when there is none). -/
def nearestPrecedingBuyPrice (trades : List Trade) (i : ℕ) : JsNum :=
  match (trades.take i).reverse.find? (fun t => t.type = SignalType.BUY) with
  | some t => t.price
  | none => JsNum.num 0

/-- Number of profitable SELLs under the claim's pairing. -/
def specProfitableCount (trades : List Trade) : ℕ :=
  (trades.enum.filter (fun p =>
    p.2.type = SignalType.SELL &&
      p.2.price.gt (nearestPrecedingBuyPrice trades p.1))).length

lemma entryPriceFrom_eq_nearest (trades : List Trade) :
    ∀ j, j < trades.length →
    entryPriceFrom trades j = nearestPrecedingBuyPrice trades (j + 1)
  | 0, hj => by
    have hg : trades.get? 0 = some (trades.get ⟨0, hj⟩) := List.get?_eq_get hj
    rw [entryPriceFrom, hg, nearestPrecedingBuyPrice]
    cases trades with
    | nil => simp at hj
    | cons t rest =>
      show (if t.type = SignalType.BUY then t.price else JsNum.num 0) = _
      rw [show ((t :: rest).take 1) = [t] from rfl]
      by_cases hb : t.type = SignalType.BUY
      · rw [if_pos hb]
        simp [hb, List.find?]
      · rw [if_neg hb]
        simp only [List.reverse_singleton, List.find?]
        rw [show (decide (t.type = SignalType.BUY)) = false by simpa using hb]
  | j + 1, hj => by
    have hg : trades.get? (j + 1) = some (trades.get ⟨j + 1, hj⟩) :=
      List.get?_eq_get hj
    rw [entryPriceFrom, hg]
    dsimp only
    have htake : trades.take (j + 2) = trades.take (j + 1) ++
        [trades.get ⟨j + 1, hj⟩] := by
      rw [List.take_succ, ← List.get?_eq_getElem?, hg]
      rfl
    rw [nearestPrecedingBuyPrice, htake, List.reverse_append,
      List.reverse_singleton, List.singleton_append, List.find?]
    by_cases hb : (trades.get ⟨j + 1, hj⟩).type = SignalType.BUY
    · rw [if_pos hb]
      rw [show (decide ((trades.get ⟨j + 1, hj⟩).type = SignalType.BUY)) = true by
        simpa using hb]
    · rw [if_neg hb]
      rw [show (decide ((trades.get ⟨j + 1, hj⟩).type = SignalType.BUY)) = false by
        simpa using hb]
      rw [entryPriceFrom_eq_nearest trades j (by omega), nearestPrecedingBuyPrice]

lemma findEntryPrice_eq_nearest (trades : List Trade) (i : ℕ)
    (hi : i ≤ trades.length) :
    findEntryPrice trades i = nearestPrecedingBuyPrice trades i := by
  cases i with
  | zero => rfl
  | succ j => exact entryPriceFrom_eq_nearest trades j (by omega)

lemma profitableTradesCount_eq_spec (trades : List Trade) :
    profitableTradesCount trades = specProfitableCount trades := by
  rw [profitableTradesCount, specProfitableCount]
  congr 1
  refine List.filter_congr ?_
  intro p hp
  have hidx : trades.get? p.1 = some p.2 := List.mem_enum_iff_get?.1 hp
  have hlt : p.1 < trades.length := (List.get?_eq_some.1 hidx).1
  rw [isProfitableSell, findEntryPrice_eq_nearest trades p.1 (le_of_lt hlt)]

lemma specProfitableCount_le_sell (trades : List Trade) :
    specProfitableCount trades ≤ sellTradesCount trades := by
  rw [specProfitableCount, sellTradesCount]
  have h1 : (trades.enum.filter (fun p =>
      p.2.type = SignalType.SELL &&
        p.2.price.gt (nearestPrecedingBuyPrice trades p.1))).length ≤
      (trades.enum.filter (fun p : ℕ × Trade =>
        decide (p.2.type = SignalType.SELL))).length := by
    rw [← List.countP_eq_length_filter, ← List.countP_eq_length_filter]
    refine List.countP_mono_left ?_
    intro x _ hx
    rw [Bool.and_eq_true] at hx
    exact hx.1
  refine le_trans h1 (le_of_eq ?_)
  have h2 : (trades.filter (fun t => t.type = SignalType.SELL)) =
      ((trades.enum.filter (fun p : ℕ × Trade =>
        decide (p.2.type = SignalType.SELL))).map Prod.snd) := by
    have := List.map_filter (p := fun t : Trade => decide (t.type = SignalType.SELL))
      Prod.snd trades.enum
    rw [List.enum_map_snd] at this
    rw [this]
    rfl
  rw [h2, List.length_map]

/-- C9: whenever `runBacktest` returns a result, the reported `winRate` is
`profitableSells / totalSells × 100`, where a SELL is profitable exactly when
its price exceeds the price of the nearest preceding BUY in the trade list
(the code's backward scan agrees with that pairing); the rate is `0` — not
`NaN` — when there are no SELLs, and always lies in `[0, 100]`. -/
theorem runBacktest_winRate_spec (data : List MarketData)
    (config : StrategyConfig) (aiSignals : Option (List AiSignal))
    (res : BacktestResult) (h : runBacktest data config aiSignals = .ok res) :
    (res.winRate = if 0 < sellTradesCount res.trades
      then JsNum.num (((specProfitableCount res.trades : ℚ) /
        (sellTradesCount res.trades : ℚ)) * 100)
      else JsNum.num 0) ∧
    (sellTradesCount res.trades = 0 → res.winRate = JsNum.num 0) ∧
    ∃ q, res.winRate = JsNum.num q ∧ 0 ≤ q ∧ q ≤ 100 := by
  have hwr : res.winRate = if 0 < sellTradesCount res.trades
      then JsNum.num (((profitableTradesCount res.trades : ℚ) /
        (sellTradesCount res.trades : ℚ)) * 100)
      else JsNum.num 0 := by
    rw [runBacktest] at h
    cases hr : calculateRSI data config.rsiPeriod with
    | error e => rw [hr] at h; exact Except.noConfusion h
    | ok rsi =>
      rw [hr] at h
      dsimp only at h
      cases hl : data.getLast? with
      | none => rw [hl] at h; exact Except.noConfusion h
      | some last =>
        rw [hl, Except.ok.injEq] at h
        rw [← h]
        rfl
  rw [hwr, profitableTradesCount_eq_spec]
  refine ⟨rfl, ?_, ?_⟩
  · intro h0
    rw [if_neg (by omega)]
  · by_cases hs : 0 < sellTradesCount res.trades
    · rw [if_pos hs]
      refine ⟨_, rfl, ?_, ?_⟩
      · positivity
      · have hle : (specProfitableCount res.trades : ℚ) ≤
            (sellTradesCount res.trades : ℚ) := by
          exact_mod_cast specProfitableCount_le_sell res.trades
        have hspos : (0 : ℚ) < (sellTradesCount res.trades : ℚ) := by
          exact_mod_cast hs
        have : (specProfitableCount res.trades : ℚ) /
            (sellTradesCount res.trades : ℚ) ≤ 1 :=
          (div_le_one hspos).2 hle
        nlinarith
    · rw [if_neg hs]
      exact ⟨0, rfl, le_refl 0, by norm_num⟩

/-- C9 witness: a BUY at 2 then SELL at 3 gives one profitable SELL and a win
rate of 100. -/
theorem runBacktest_winRate_spec_witness :
    (((runBacktest [pt "x" 2, pt "y" 3] cfgAI
        (some [⟨"x", SignalType.BUY, ""⟩, ⟨"y", SignalType.SELL, ""⟩])).toOption.getD
          dummyResult).winRate =
      if 0 < sellTradesCount ((runBacktest [pt "x" 2, pt "y" 3] cfgAI
          (some [⟨"x", SignalType.BUY, ""⟩, ⟨"y", SignalType.SELL, ""⟩])).toOption.getD
            dummyResult).trades
      then JsNum.num (((specProfitableCount ((runBacktest [pt "x" 2, pt "y" 3] cfgAI
          (some [⟨"x", SignalType.BUY, ""⟩, ⟨"y", SignalType.SELL, ""⟩])).toOption.getD
            dummyResult).trades : ℚ) /
        (sellTradesCount ((runBacktest [pt "x" 2, pt "y" 3] cfgAI
          (some [⟨"x", SignalType.BUY, ""⟩, ⟨"y", SignalType.SELL, ""⟩])).toOption.getD
            dummyResult).trades : ℚ)) * 100)
      else JsNum.num 0) ∧
    (sellTradesCount ((runBacktest [pt "x" 2, pt "y" 3] cfgAI
        (some [⟨"x", SignalType.BUY, ""⟩, ⟨"y", SignalType.SELL, ""⟩])).toOption.getD
          dummyResult).trades = 0 →
      ((runBacktest [pt "x" 2, pt "y" 3] cfgAI
        (some [⟨"x", SignalType.BUY, ""⟩, ⟨"y", SignalType.SELL, ""⟩])).toOption.getD
          dummyResult).winRate = JsNum.num 0) ∧
    ∃ q, ((runBacktest [pt "x" 2, pt "y" 3] cfgAI
        (some [⟨"x", SignalType.BUY, ""⟩, ⟨"y", SignalType.SELL, ""⟩])).toOption.getD
          dummyResult).winRate = JsNum.num q ∧ 0 ≤ q ∧ q ≤ 100 :=
  runBacktest_winRate_spec [pt "x" 2, pt "y" 3] cfgAI
    (some [⟨"x", SignalType.BUY, ""⟩, ⟨"y", SignalType.SELL, ""⟩])
    ((runBacktest [pt "x" 2, pt "y" 3] cfgAI
      (some [⟨"x", SignalType.BUY, ""⟩, ⟨"y", SignalType.SELL, ""⟩])).toOption.getD
        dummyResult) rfl
